import Mathlib

/-!
Verification of the LM Studio chat client's streaming pipeline.

This file gives a shallow embedding, in Lean, of the pure logic of the
repository's API layer:

* `src/services/api/streamParser.ts` — the SSE stream parser
  (`parseSSELine`, `parseStreamResponse`, `extractContentFromChunk`,
  `isStreamComplete`, `getFinishReason`, `processStream`);
* `src/services/api/errors.ts` — the error taxonomy
  (`handleFetchError`, `isRetryableError`);
* `src/services/api/lmStudioClient.ts` — the retry loop of
  `LMStudioClient.request` and `calculateRetryDelay`;
* `src/services/api/chatService.ts` — `validateRequest`, `sendMessage`;
* `src/services/api/healthCheck.ts` — `HealthCheckService.check`;
* `src/utils/validation.ts` — `isValidMessage`.

Modelling conventions:

* JavaScript strings are `List Char` (after `TextDecoder` decoding; the
  decoder's streaming mode makes byte-boundary cuts equivalent to
  character-boundary cuts, so batch sequences are `List (List Char)`).
* `JSON.parse` of a chunk payload is an opaque parameter
  `J : List Char → Option ChatCompletionStreamChunk` (`none` = the parse
  threw); every theorem quantifies over it.
* The network is an oracle: per-attempt outcomes for the retry loop, a
  single result for one-shot calls, and a list of `ReadEvent`s (byte
  batches / rejection of `reader.read()`) for streams.
* JS numbers of the retry policy are modelled as rationals, `Math.random()`
  as an explicit parameter in `[0,1)`.
* Thrown exceptions become `Except`/`Option` values; the callback-driven
  `processStream` is modelled as the trace of callback invocations.
-/

namespace LMChat

/-! ## Data model: `src/types/api.ts` -/

/-- The `choices[i].delta` of a stream chunk: `{ role?, content? }`. -/
structure StreamDelta where
  role : Option (List Char)
  content : Option (List Char)
deriving DecidableEq

/-- One element of `choices` in `ChatCompletionStreamChunk`. -/
structure StreamChoice where
  index : Nat
  delta : StreamDelta
  finish_reason : Option (List Char)
deriving DecidableEq

/-- The `ChatCompletionStreamChunk` type from `src/types/api.ts`. -/
structure ChatCompletionStreamChunk where
  id : List Char
  object : List Char
  created : Nat
  model : List Char
  choices : List StreamChoice
deriving DecidableEq

/-! ## SSE parser: `src/services/api/streamParser.ts` -/

/-- JS `String.prototype.trim`. -/
def trimL (l : List Char) : List Char :=
  ((l.dropWhile Char.isWhitespace).reverse.dropWhile Char.isWhitespace).reverse

/-- Result of `parseSSELine`: `{ type, data }`. -/
structure SSEField where
  type : List Char
  data : List Char
deriving DecidableEq

/-- Model of `parseSSELine` (streamParser.ts): classify one complete SSE line. -/
def parseSSELine (line : List Char) : Option SSEField :=
  if trimL line = [] then none
  else if "data: ".data.isPrefixOf line then
    some ⟨"data".data, trimL (line.drop 6)⟩
  else
    match line.findIdx? (· = ':') with
    | some colonIndex =>
        if 0 < colonIndex then
          some ⟨trimL (line.take colonIndex), trimL (line.drop (colonIndex + 1))⟩
        else none
    | none => none

/-- JS `buffer.split('\n')` for a single-character separator. -/
def splitNl : List Char → List (List Char)
  | [] => [[]]
  | c :: cs =>
    if c = '\n' then [] :: splitNl cs
    else
      match splitNl cs with
      | [] => [[c]]
      | l :: ls => (c :: l) :: ls

/-- State of the `parseStreamResponse` generator: the retained text buffer,
the chunks yielded so far, and whether the generator has returned at a
`[DONE]` marker (after which its buffer no longer exists). -/
structure PState where
  buffer : List Char
  out : List ChatCompletionStreamChunk
  term : Bool
deriving DecidableEq

/-- Processing of one complete line inside the generator's `for` loop,
acting on (chunks yielded so far, hit `[DONE]`): skip non-`data` lines,
stop at `[DONE]`, JSON-parse the payload and skip it on parse failure. -/
def applyData (J : List Char → Option ChatCompletionStreamChunk)
    (acc : List ChatCompletionStreamChunk × Bool) (line : List Char) :
    List ChatCompletionStreamChunk × Bool :=
  if acc.2 then acc
  else
    match parseSSELine line with
    | none => acc
    | some parsed =>
      if parsed.type ≠ "data".data then acc
      else if parsed.data = "[DONE]".data then (acc.1, true)
      else
        match J parsed.data with
        | some chunk => (acc.1 ++ [chunk], false)
        | none => acc

/-- One iteration of the generator's `while` loop on an inbound batch:
append to the buffer, split on newlines, keep the final fragment, process
the complete lines (stopping at `[DONE]`, whereupon the generator
returns and its buffer is discarded). -/
def feedBatch (J : List Char → Option ChatCompletionStreamChunk)
    (st : PState) (batch : List Char) : PState :=
  if st.term then st
  else
    let parts := splitNl (st.buffer ++ batch)
    let r := parts.dropLast.foldl (applyData J) (st.out, false)
    if r.2 then ⟨[], r.1, true⟩ else ⟨parts.getLastD [], r.1, false⟩

/-- Character-granularity version of `feedBatch`, used to prove that batch
boundaries are invisible: a non-newline character is buffered, a newline
completes the buffered line. -/
def charStep (J : List Char → Option ChatCompletionStreamChunk)
    (st : PState) (c : Char) : PState :=
  if st.term then st
  else if c = '\n' then
    let r := applyData J (st.out, false) st.buffer
    if r.2 then ⟨[], r.1, true⟩ else ⟨[], r.1, false⟩
  else { st with buffer := st.buffer ++ [c] }

/-- The post-loop flush of `parseStreamResponse`: once the byte stream
ends, a non-blank retained buffer is run through the same line logic. -/
def flushBuffer (J : List Char → Option ChatCompletionStreamChunk)
    (st : PState) : List ChatCompletionStreamChunk :=
  if st.term then st.out
  else if trimL st.buffer ≠ [] then
    match parseSSELine st.buffer with
    | some parsed =>
      if parsed.type = "data".data ∧ parsed.data ≠ "[DONE]".data then
        match J parsed.data with
        | some chunk => st.out ++ [chunk]
        | none => st.out
      else st.out
    | none => st.out
  else st.out

/-- One observable outcome of `reader.read()`: a decoded byte batch, a
rejection with `AbortError` (cancellation), or another rejection. -/
inductive ReadEvent where
  | batch (data : List Char)
  | aborted
  | ioError
deriving DecidableEq

/-- How the generator's read loop ended. -/
inductive EndKind where
  | eof | doneMark | cancelled | failed
deriving DecidableEq

/-- Run the generator's read loop over the events of the underlying byte
stream: batches are fed through `feedBatch` until `[DONE]`; an
`AbortError` rejection is caught and ends the generator silently; any
other rejection is wrapped as a `StreamError`. -/
def runEvents (J : List Char → Option ChatCompletionStreamChunk)
    (st : PState) : List ReadEvent → PState × EndKind
  | [] => (st, .eof)
  | .batch b :: rest =>
      let st' := feedBatch J st b
      if st'.term then (st', .doneMark) else runEvents J st' rest
  | .aborted :: _ => (st, .cancelled)
  | .ioError :: _ => (st, .failed)

/-- Initial generator state: empty buffer, nothing yielded. -/
def initState : PState := ⟨[], [], false⟩

/-- Model of `parseStreamResponse` as a whole: the sequence of yielded chunks and
whether the generator ended by throwing (`true` exactly for non-abort
read failures; the flush runs only when the stream ends normally). -/
def parseStreamEvents (J : List Char → Option ChatCompletionStreamChunk)
    (events : List ReadEvent) : List ChatCompletionStreamChunk × Bool :=
  match runEvents J initState events with
  | (st, .eof) => (flushBuffer J st, false)
  | (st, .doneMark) => (st.out, false)
  | (st, .cancelled) => (st.out, false)
  | (st, .failed) => (st.out, true)

/-- The chunk sequence produced from a list of successfully read batches. -/
def parseStream (J : List Char → Option ChatCompletionStreamChunk)
    (batches : List (List Char)) : List ChatCompletionStreamChunk :=
  (parseStreamEvents J (batches.map ReadEvent.batch)).1

/-! ## Chunk helpers and the `processStream` driver (streamParser.ts) -/

/-- Model of `extractContentFromChunk`: `choices[0].delta.content`, with JS
truthiness (the empty string is falsy), else `''`. -/
def extractContentFromChunk (chunk : ChatCompletionStreamChunk) : List Char :=
  match chunk.choices with
  | [] => []
  | choice :: _ =>
    match choice.delta.content with
    | some c => if c = [] then [] else c
    | none => []

/-- Model of `isStreamComplete`: `choices[0].finish_reason` present and non-null. -/
def isStreamComplete (chunk : ChatCompletionStreamChunk) : Bool :=
  match chunk.choices with
  | [] => false
  | choice :: _ => choice.finish_reason.isSome

/-- Model of `getFinishReason`: `choices[0].finish_reason` verbatim, else null. -/
def getFinishReason (chunk : ChatCompletionStreamChunk) : Option (List Char) :=
  match chunk.choices with
  | [] => none
  | choice :: _ => choice.finish_reason

/-- One callback invocation observed by the caller of `processStream`
(and hence of `ChatService.sendMessageStream`, which forwards each one). -/
inductive CBEvent where
  | chunkCB (chunk : ChatCompletionStreamChunk)
  | contentCB (content fullContent : List Char)
  | completeCB (fullContent : List Char) (finishReason : Option (List Char))
  | errorCB
deriving DecidableEq

/-- Recognizer for the `onComplete` callback in a trace. -/
def isCompleteCB : CBEvent → Bool
  | .completeCB _ _ => true
  | _ => false

/-- Accumulator of `processStream`'s `for await` loop: `fullContent`,
`finishReason`, and the callback trace so far. -/
structure FoldState where
  fullContent : List Char
  finishReason : Option (List Char)
  trace : List CBEvent
deriving DecidableEq

/-- Body of `processStream`'s loop for one yielded chunk: `onChunk`, then
content extraction/accumulation with `onContent` when non-empty, then
`finishReason` update when the chunk is terminal. -/
def stepChunk (acc : FoldState) (chunk : ChatCompletionStreamChunk) : FoldState :=
  let acc1 := { acc with trace := acc.trace ++ [CBEvent.chunkCB chunk] }
  let content := extractContentFromChunk chunk
  let acc2 :=
    if content ≠ [] then
      { acc1 with
        fullContent := acc1.fullContent ++ content
        trace := acc1.trace ++ [CBEvent.contentCB content (acc1.fullContent ++ content)] }
    else acc1
  if isStreamComplete chunk then { acc2 with finishReason := getFinishReason chunk } else acc2

/-- Model of `processStream` over the events of the underlying byte stream: the
full callback trace. If the chunk sequence ends without throwing (end of
stream, `[DONE]`, or a caught abort) the trace ends with one `onComplete`;
if the generator threw, with one `onError`. -/
def processStreamEvents (J : List Char → Option ChatCompletionStreamChunk)
    (events : List ReadEvent) : List CBEvent :=
  let r := parseStreamEvents J events
  let acc := r.1.foldl stepChunk ⟨[], none, []⟩
  if r.2 then acc.trace ++ [CBEvent.errorCB]
  else acc.trace ++ [CBEvent.completeCB acc.fullContent acc.finishReason]

/-! ## Error taxonomy: `src/services/api/errors.ts` -/

/-- The `APIError` class hierarchy. `api` is the base class (carrying its
`code` and optional `statusCode`); the other constructors are the
subclasses, with the extra data their constructors store. The `unknown`
kind of the spec is `api _ "UNKNOWN_ERROR" _`. -/
inductive APIErr where
  | api (message code : List Char) (statusCode : Option Nat)
  | network (message : List Char)
  | timeout (message : List Char)
  | server (message : List Char) (statusCode : Nat)
  | stream (message : List Char)
  | modelNotFound (message : List Char) (modelId : Option (List Char))
  | validation (message : List Char) (field : Option (List Char))
  | cancelled (message : List Char)
  | parseFail (message : List Char)
deriving DecidableEq

/-- The `message` property of an `APIError`. -/
def APIErr.message : APIErr → List Char
  | .api m _ _ => m
  | .network m => m
  | .timeout m => m
  | .server m _ => m
  | .stream m => m
  | .modelNotFound m _ => m
  | .validation m _ => m
  | .cancelled m => m
  | .parseFail m => m

/-- Test for `error instanceof CancellationError`. -/
def isCancellation : APIErr → Bool
  | .cancelled _ => true
  | _ => false

/-- Model of `isRetryableError` (errors.ts): network and timeout always, server
only for a 5xx status, nothing else. -/
def isRetryableError : APIErr → Bool
  | .network _ => true
  | .timeout _ => true
  | .server _ statusCode => decide (500 ≤ statusCode ∧ statusCode < 600)
  | _ => false

/-- JS `String.prototype.includes`: substring containment. -/
def includesSub (sub s : List Char) : Bool := decide (sub <:+: s)

/-- A value caught by a `catch` block: an `APIError` instance, a native
`Error` with its `name` and `message`, or a non-`Error` value. -/
inductive Caught where
  | apiError (e : APIErr)
  | jsError (name message : List Char)
  | notAnError
deriving DecidableEq

/-- Model of `handleFetchError` (errors.ts): pass `APIError`s through; classify a
native error by `name === 'AbortError'`, then `name === 'TimeoutError' ||
message.includes('timeout')`, then `message.includes('Network') ||
message.includes('Failed to fetch')` (both case-sensitive), else wrap as
a generic unknown `APIError`; wrap non-`Error` values as unknown. -/
def handleFetchError : Caught → APIErr
  | .apiError e => e
  | .jsError name message =>
    if name = "AbortError".data then .cancelled "Request was cancelled".data
    else if name = "TimeoutError".data ∨ includesSub "timeout".data message then
      .timeout "Request timeout".data
    else if includesSub "Network".data message ∨ includesSub "Failed to fetch".data message then
      .network "Network request failed".data
    else .api message "UNKNOWN_ERROR".data none
  | .notAnError => .api "An unknown error occurred".data "UNKNOWN_ERROR".data none

/-! ## Retry loop: `src/services/api/lmStudioClient.ts` -/

/-- The `RetryConfig` record. The delays and multiplier are JS numbers, modelled as
rationals; `maxRetries` is used only as a loop bound. -/
structure RetryConfig where
  maxRetries : Nat
  initialDelayMs : ℚ
  maxDelayMs : ℚ
  backoffMultiplier : ℚ
deriving DecidableEq

/-- The `DEFAULT_RETRY_CONFIG` constant (lmStudioClient.ts). -/
def DEFAULT_RETRY_CONFIG : RetryConfig := ⟨3, 1000, 10000, 2⟩

/-- Model of `calculateRetryDelay`: exponential backoff capped at `maxDelayMs`,
plus `Math.random() * 1000` jitter; the random draw `rand ∈ [0,1)` is an
explicit parameter. -/
def calculateRetryDelay (rc : RetryConfig) (attemptNumber : Nat) (rand : ℚ) : ℚ :=
  let delay := min (rc.initialDelayMs * rc.backoffMultiplier ^ attemptNumber) rc.maxDelayMs
  delay + rand * 1000

/-- The attempt loop of `LMStudioClient.request`. `outcome n` is what
attempt `n` produced: a response already past the non-2xx check, or the
value its `try` block threw (a `ServerError` for non-2xx statuses, an
`AbortError` for cancellation/timeout aborts, other fetch failures).
Returns the result together with the number of attempts performed. The
fuel counts the remaining loop iterations (`maxRetries + 1` at entry);
the fuel-exhausted branch is the source's unreachable
`throw lastError || new APIError('Request failed after retries', ...)`. -/
def requestIter {T : Type} (outcome : Nat → Except Caught T) (maxRetries : Nat) :
    Nat → Nat → Except APIErr T × Nat
  | _, 0 => (.error (.api "Request failed after retries".data "REQUEST_FAILED".data none), 0)
  | attempt, fuel + 1 =>
    match outcome attempt with
    | .ok v => (.ok v, attempt + 1)
    | .error caught =>
      let lastError := handleFetchError caught
      if isCancellation lastError then (.error lastError, attempt + 1)
      else if isRetryableError lastError = false ∨ maxRetries ≤ attempt then
        (.error lastError, attempt + 1)
      else requestIter outcome maxRetries (attempt + 1) fuel

/-- Model of `LMStudioClient.request`: run the loop from attempt 0 with the full
`1 + maxRetries` budget. -/
def request {T : Type} (outcome : Nat → Except Caught T) (maxRetries : Nat) :
    Except APIErr T × Nat :=
  requestIter outcome maxRetries 0 (maxRetries + 1)

/-! ## Chat service: `src/services/api/chatService.ts` and
`src/utils/validation.ts` -/

/-- Message roles. -/
inductive MessageRole where
  | user | assistant | system
deriving DecidableEq

/-- The `Message` type from `src/types/chat.ts`. -/
structure Message where
  id : List Char
  role : MessageRole
  content : List Char
  timestamp : Nat
  isStreaming : Option Bool
deriving DecidableEq

/-- A wire-format message `{role, content}` after `formatMessages`. -/
structure WireMessage where
  role : MessageRole
  content : List Char
deriving DecidableEq

/-- The `ChatCompletionRequest` record as built by the service (all numeric
parameters resolved from defaults). -/
structure ChatCompletionRequest where
  model : List Char
  messages : List WireMessage
  temperature : ℚ
  max_tokens : ℚ
  top_p : ℚ
  stream : Bool
deriving DecidableEq

/-- Constant `MODEL_DEFAULTS.TEMPERATURE` (constants/config.ts). -/
def TEMPERATURE_DEFAULT : ℚ := 7 / 10

/-- Constant `MODEL_DEFAULTS.MAX_TOKENS` (constants/config.ts). -/
def MAX_TOKENS_DEFAULT : ℚ := 2048

/-- Constant `MODEL_DEFAULTS.TOP_P` (constants/config.ts). -/
def TOP_P_DEFAULT : ℚ := 9 / 10

/-- Constant `UI_CONFIG.MESSAGE_MAX_LENGTH` (constants/config.ts). -/
def MESSAGE_MAX_LENGTH : Nat := 10000

/-- Model of `isValidMessage` (utils/validation.ts): validity flag plus the error
message when invalid. -/
def isValidMessage (message : List Char) : Bool × Option (List Char) :=
  if message = [] ∨ trimL message = [] then
    (false, some "Message cannot be empty".data)
  else if MESSAGE_MAX_LENGTH < (trimL message).length then
    (false, some "Message must be 10000 characters or less".data)
  else (true, none)

/-- Model of `ChatService.formatMessages`: strip client-only fields. -/
def formatMessages (messages : List Message) : List WireMessage :=
  messages.map fun m => ⟨m.role, m.content⟩

/-- Model of `ChatService.validateRequest`: the `ValidationError` it throws, if
any. The last-message lookup is total because it is only reached when
`messages` is non-empty. -/
def validateRequest (request : ChatCompletionRequest) : Option APIErr :=
  if request.model = [] then
    some (.validation "Model is required".data (some "model".data))
  else if request.messages = [] then
    some (.validation "At least one message is required".data (some "messages".data))
  else
    match request.messages.getLast? with
    | some lastMessage =>
      let v := isValidMessage lastMessage.content
      if v.1 = false then
        some (.validation (v.2.getD "Invalid message".data) (some "messages".data))
      else none
    | none => none

/-- The `choices[i].message` of a non-streaming response. -/
structure RespMessage where
  role : List Char
  content : List Char
deriving DecidableEq

/-- One element of `choices` in `ChatCompletionResponse`. -/
structure RespChoice where
  index : Nat
  message : RespMessage
  finish_reason : Option (List Char)
deriving DecidableEq

/-- A non-streaming completion response body as the service observes it;
`choices := none` models a body whose `choices` key is missing (the
`response.data?.choices` check). -/
structure ChatCompletionResponse where
  id : List Char
  object : List Char
  created : Nat
  model : List Char
  choices : Option (List RespChoice)
deriving DecidableEq

/-- Build the request of `ChatService.sendMessage`/`sendMessageStream`
from the caller's arguments and the configured defaults. -/
def buildRequest (messages : List Message) (model : List Char)
    (temperature maxTokens topP : Option ℚ) (stream : Bool) : ChatCompletionRequest :=
  { model := model
    messages := formatMessages messages
    temperature := temperature.getD TEMPERATURE_DEFAULT
    max_tokens := maxTokens.getD MAX_TOKENS_DEFAULT
    top_p := topP.getD TOP_P_DEFAULT
    stream := stream }

/-- Model of `ChatService.sendMessage`. Here `transport` is `client.post` (whose thrown
values are always `APIError` instances, so the service's catch block
rethrows them unchanged). Returns the result together with the number of
transport invocations. -/
def sendMessage (transport : ChatCompletionRequest → Except APIErr ChatCompletionResponse)
    (messages : List Message) (model : List Char)
    (temperature maxTokens topP : Option ℚ) :
    Except APIErr (List Char) × Nat :=
  let req := buildRequest messages model temperature maxTokens topP false
  match validateRequest req with
  | some e => (.error e, 0)
  | none =>
    match transport req with
    | .error e => (.error e, 1)
    | .ok resp =>
      match resp.choices with
      | none => (.error (.api "No response from model".data "NO_RESPONSE".data none), 1)
      | some [] => (.error (.api "No response from model".data "NO_RESPONSE".data none), 1)
      | some (choice :: _) => (.ok choice.message.content, 1)

/-! ## Health check: `src/services/api/healthCheck.ts` -/

/-- The `ModelInfo` type from `src/types/api.ts`. -/
structure ModelInfo where
  id : List Char
  object : List Char
  created : Option Nat
  owned_by : Option (List Char)
deriving DecidableEq

/-- The `{ data: any[] }` body fetched by the health check; `data := none`
models a body without the key (the `response.data?.data?` chain). -/
structure ModelsPayload where
  data : Option (List ModelInfo)
deriving DecidableEq

/-- The `HealthCheckResult` type from `src/types/api.ts`. -/
structure HealthCheckResult where
  isHealthy : Bool
  latency : Option Nat
  modelsAvailable : Option Nat
  error : Option (List Char)
deriving DecidableEq

/-- Model of `HealthCheckService.check` as a function of the outcome of the
underlying `client.get('/v1/models')` (under the merged 5s timeout
signal) and of the measured latency: healthy result on success, an
unhealthy result with `apiError.message || 'Health check failed'` on any
failure — it catches everything and never throws. -/
def check (result : Except APIErr (Option ModelsPayload)) (latency : Nat) :
    HealthCheckResult :=
  match result with
  | .ok payload =>
      { isHealthy := true
        latency := some latency
        modelsAvailable := some (((payload.bind ModelsPayload.data).map List.length).getD 0)
        error := none }
  | .error e =>
      { isHealthy := false
        latency := some latency
        modelsAvailable := some 0
        error := some (if e.message = [] then "Health check failed".data else e.message) }

/-! ## Concrete instances used by the witnesses -/

/-- A sample stream chunk with a content delta and no finish reason. -/
def demoChunk1 : ChatCompletionStreamChunk :=
  ⟨"1".data, "chat.completion.chunk".data, 0, "m".data, [⟨0, ⟨none, some "Hi".data⟩, none⟩]⟩

/-- A sample terminal stream chunk. -/
def demoChunk3 : ChatCompletionStreamChunk :=
  ⟨"3".data, "chat.completion.chunk".data, 0, "m".data, [⟨0, ⟨none, some "!".data⟩, some "stop".data⟩]⟩

/-- A sample instantiation of the opaque `JSON.parse`: two recognized
payloads, everything else a parse failure. -/
def demoParse : List Char → Option ChatCompletionStreamChunk := fun s =>
  if s = "one".data then some demoChunk1
  else if s = "three".data then some demoChunk3
  else none

/-! ### Structural lemmas about `splitNl` -/

theorem splitNl_ne_nil (l : List Char) : splitNl l ≠ [] := by
  cases l with
  | nil => simp [splitNl]
  | cons c cs =>
    simp only [splitNl]
    split
    · simp
    · split <;> simp

theorem splitNl_of_not_mem {l : List Char} (h : '\n' ∉ l) : splitNl l = [l] := by
  induction l with
  | nil => rfl
  | cons c cs ih =>
    have hc : ¬ c = '\n' := fun hx => h (hx ▸ List.mem_cons_self c cs)
    have hcs : '\n' ∉ cs := fun hx => h (List.mem_cons_of_mem c hx)
    simp only [splitNl, if_neg hc, ih hcs]

theorem splitNl_append_nl {x : List Char} (y : List Char) (h : '\n' ∉ x) :
    splitNl (x ++ '\n' :: y) = x :: splitNl y := by
  induction x with
  | nil => simp [splitNl]
  | cons c cs ih =>
    have hc : ¬ c = '\n' := fun hx => h (hx ▸ List.mem_cons_self c cs)
    have hcs : '\n' ∉ cs := fun hx => h (List.mem_cons_of_mem c hx)
    simp only [List.cons_append, splitNl, if_neg hc, List.append_eq, ih hcs]

theorem not_mem_of_mem_splitNl {l s : List Char} (hs : s ∈ splitNl l) : '\n' ∉ s := by
  induction l generalizing s with
  | nil =>
    simp only [splitNl, List.mem_singleton] at hs
    subst hs; simp
  | cons c cs ih =>
    simp only [splitNl] at hs
    by_cases hc : c = '\n'
    · rw [if_pos hc] at hs
      rcases List.mem_cons.mp hs with h | h
      · subst h; simp
      · exact ih h
    · rw [if_neg hc] at hs
      rcases hmatch : splitNl cs with _ | ⟨m, ms⟩
      · exact absurd hmatch (splitNl_ne_nil cs)
      · rw [hmatch] at hs
        rcases List.mem_cons.mp hs with h | h
        · subst h
          intro hmem
          rcases List.mem_cons.mp hmem with h' | h'
          · exact hc h'.symm
          · exact ih (hmatch ▸ List.mem_cons_self m ms) h'
        · exact ih (hmatch ▸ List.mem_cons_of_mem m h)

theorem getLastD_mem {α : Type} (l : List α) (d : α) (h : l ≠ []) : l.getLastD d ∈ l := by
  rw [List.getLastD_eq_getLast? d l]
  rcases hl : l.getLast? with _ | a
  · exact absurd (List.getLast?_eq_none_iff.mp hl) h
  · simp only [Option.getD_some]
    obtain ⟨hx, hax⟩ := List.mem_getLast?_eq_getLast (Option.mem_def.mpr hl)
    rw [hax]
    exact List.getLast_mem hx

theorem getLastD_irrel {α : Type} (l : List α) (d₁ d₂ : α) (h : l ≠ []) :
    l.getLastD d₁ = l.getLastD d₂ := by
  rw [List.getLastD_eq_getLast? d₁ l, List.getLastD_eq_getLast? d₂ l]
  rcases hl : l.getLast? with _ | a
  · exact absurd (List.getLast?_eq_none_iff.mp hl) h
  · rfl

/-! ### `feedBatch` agrees with character-by-character feeding -/

theorem feedBatch_of_term {J} {st : PState} (h : st.term = true) (b : List Char) :
    feedBatch J st b = st := by
  simp [feedBatch, h]

theorem charStep_of_term {J} {st : PState} (h : st.term = true) (c : Char) :
    charStep J st c = st := by
  simp [charStep, h]

theorem foldl_charStep_of_term {J} {st : PState} (h : st.term = true) (b : List Char) :
    b.foldl (charStep J) st = st := by
  induction b with
  | nil => rfl
  | cons c cs ih => rw [List.foldl_cons, charStep_of_term h, ih]

theorem applyData_of_true {J} {acc : List ChatCompletionStreamChunk × Bool}
    (h : acc.2 = true) (line : List Char) : applyData J acc line = acc := by
  simp [applyData, h]

theorem foldl_applyData_of_true {J} {acc : List ChatCompletionStreamChunk × Bool}
    (h : acc.2 = true) (ls : List (List Char)) : ls.foldl (applyData J) acc = acc := by
  induction ls with
  | nil => rfl
  | cons l ls ih => rw [List.foldl_cons, applyData_of_true h, ih]

/-- Feeding one batch through the source's buffer-and-split loop body is the
same as feeding its characters one at a time, provided the retained buffer
holds no newline (true of every reachable state). -/
theorem feedBatch_eq_foldl_charStep (J : List Char → Option ChatCompletionStreamChunk)
    (b : List Char) (st : PState) (hbuf : '\n' ∉ st.buffer) :
    feedBatch J st b = b.foldl (charStep J) st := by
  induction b generalizing st with
  | nil =>
    cases hterm : st.term with
    | true => simp [feedBatch, hterm]
    | false =>
      obtain ⟨buf, out, term⟩ := st
      simp only at hterm
      subst hterm
      simp only [List.foldl_nil, feedBatch, Bool.false_eq_true, if_false,
        List.append_nil]
      rw [splitNl_of_not_mem hbuf]
      simp
  | cons c cs ih =>
    cases hterm : st.term with
    | true =>
      rw [feedBatch_of_term hterm, List.foldl_cons, charStep_of_term hterm,
        foldl_charStep_of_term hterm]
    | false =>
      by_cases hc : c = '\n'
      · subst hc
        obtain ⟨buf, out, term⟩ := st
        simp only at hterm
        subst hterm
        simp only at hbuf
        rw [List.foldl_cons]
        have hsplit : splitNl (buf ++ '\n' :: cs) = buf :: splitNl cs :=
          splitNl_append_nl cs hbuf
        have hne := splitNl_ne_nil cs
        rcases hr0 : applyData J (out, false) buf with ⟨o1, t1⟩
        cases t1 with
        | true =>
          have hstep : charStep J ⟨buf, out, false⟩ '\n' = ⟨[], o1, true⟩ := by
            simp [charStep, hr0]
          rw [hstep, foldl_charStep_of_term rfl]
          simp only [feedBatch, Bool.false_eq_true, if_false, hsplit,
            List.dropLast_cons_of_ne_nil hne]
          rw [List.foldl_cons, hr0, foldl_applyData_of_true rfl]
          simp
        | false =>
          have hstep : charStep J ⟨buf, out, false⟩ '\n' = ⟨[], o1, false⟩ := by
            simp [charStep, hr0]
          rw [hstep, ← ih ⟨[], o1, false⟩ (by simp)]
          simp only [feedBatch, Bool.false_eq_true, if_false, hsplit,
            List.dropLast_cons_of_ne_nil hne, List.nil_append]
          rw [List.foldl_cons, hr0]
          rw [List.getLastD_cons, getLastD_irrel (splitNl cs) buf [] hne]
      · obtain ⟨buf, out, term⟩ := st
        simp only at hterm
        subst hterm
        simp only at hbuf
        have hbuf' : '\n' ∉ buf ++ [c] := by
          intro hmem
          rcases List.mem_append.mp hmem with h | h
          · exact hbuf h
          · exact hc (List.mem_singleton.mp h).symm
        have hstep : charStep J ⟨buf, out, false⟩ c =
            ⟨buf ++ [c], out, false⟩ := by
          simp [charStep, hc]
        rw [List.foldl_cons, hstep, ← ih ⟨buf ++ [c], out, false⟩ hbuf']
        simp only [feedBatch, Bool.false_eq_true, if_false]
        rw [List.append_cons buf c cs]

/-- Reachable states keep a newline-free buffer. -/
theorem feedBatch_buffer {J} (st : PState) (b : List Char) (hbuf : '\n' ∉ st.buffer) :
    '\n' ∉ (feedBatch J st b).buffer := by
  simp only [feedBatch]
  split
  · exact hbuf
  · split
    · simp
    · simp only
      set parts := splitNl (st.buffer ++ b) with hp
      exact not_mem_of_mem_splitNl (getLastD_mem parts [] (splitNl_ne_nil _))

/-- Folding the batch step over a list of batches processes exactly the
concatenated character stream. -/
theorem foldl_feedBatch_flatten (J : List Char → Option ChatCompletionStreamChunk)
    (bs : List (List Char)) (st : PState) (hbuf : '\n' ∉ st.buffer) :
    bs.foldl (feedBatch J) st = feedBatch J st bs.flatten := by
  induction bs generalizing st with
  | nil =>
    rw [List.flatten_nil, List.foldl_nil, feedBatch_eq_foldl_charStep J [] st hbuf,
      List.foldl_nil]
  | cons b bs ih =>
    rw [List.flatten_cons, List.foldl_cons, ih (feedBatch J st b) (feedBatch_buffer st b hbuf),
      feedBatch_eq_foldl_charStep J bs.flatten _ (feedBatch_buffer st b hbuf),
      feedBatch_eq_foldl_charStep J (b ++ bs.flatten) st hbuf, List.foldl_append,
      ← feedBatch_eq_foldl_charStep J b st hbuf]

theorem flushBuffer_of_term {J} {st : PState} (h : st.term = true) :
    flushBuffer J st = st.out := by
  simp [flushBuffer, h]

theorem foldl_feedBatch_of_term {J} {st : PState} (h : st.term = true)
    (bs : List (List Char)) : bs.foldl (feedBatch J) st = st := by
  induction bs with
  | nil => rfl
  | cons b bs ih => rw [List.foldl_cons, feedBatch_of_term h, ih]

theorem runEvents_batches (J : List Char → Option ChatCompletionStreamChunk)
    (bs : List (List Char)) (st : PState) :
    (runEvents J st (bs.map ReadEvent.batch)).1 = bs.foldl (feedBatch J) st ∧
    ((runEvents J st (bs.map ReadEvent.batch)).2 = EndKind.eof ∨
      ((runEvents J st (bs.map ReadEvent.batch)).2 = EndKind.doneMark ∧
        (runEvents J st (bs.map ReadEvent.batch)).1.term = true)) := by
  induction bs generalizing st with
  | nil => simp [runEvents]
  | cons b bs ih =>
    cases h : (feedBatch J st b).term with
    | true =>
      refine ⟨?_, ?_⟩
      · simp only [List.map_cons, runEvents, h, if_true, List.foldl_cons]
        exact (foldl_feedBatch_of_term h bs).symm
      · simp [runEvents, h]
    | false =>
      simp only [List.map_cons, runEvents, h, Bool.false_eq_true, if_false,
        List.foldl_cons]
      exact ih (feedBatch J st b)

theorem parseStream_eq_flush (J : List Char → Option ChatCompletionStreamChunk)
    (bs : List (List Char)) :
    parseStream J bs = flushBuffer J (bs.foldl (feedBatch J) initState) := by
  obtain ⟨h1, h2⟩ := runEvents_batches J bs initState
  unfold parseStream parseStreamEvents
  rcases hr : runEvents J initState (bs.map ReadEvent.batch) with ⟨st, k⟩
  rw [hr] at h1 h2
  simp only at h1 h2
  subst h1
  rcases h2 with h2 | ⟨h2, hterm⟩ <;> subst h2
  · rfl
  · simpa using (flushBuffer_of_term (J := J) hterm).symm

/-- Claim C2: for every SSE payload and every way of cutting it into
successive batches, feeding the batches to the stream parser yields
exactly the same sequence of parsed chunks as feeding the payload
unsplit (buffer-boundary invariance of `parseStreamResponse`). -/
theorem spec_C2 (J : List Char → Option ChatCompletionStreamChunk)
    (batches : List (List Char)) (payload : List Char)
    (h : batches.flatten = payload) :
    parseStream J batches = parseStream J [payload] := by
  rw [parseStream_eq_flush, parseStream_eq_flush,
    foldl_feedBatch_flatten J batches initState (by simp [initState]),
    foldl_feedBatch_flatten J [payload] initState (by simp [initState]), h]
  simp

/-- Witness for C2: a payload with two data lines, cut in the middle of
the first line, parses to the same two chunks as the unsplit payload. -/
theorem spec_C2_witness :
    (["data: o".data, "ne\ndata: three\n".data] : List (List Char)).flatten
        = "data: one\ndata: three\n".data ∧
    parseStream demoParse ["data: o".data, "ne\ndata: three\n".data]
        = parseStream demoParse ["data: one\ndata: three\n".data] :=
  ⟨by decide,
    spec_C2 demoParse ["data: o".data, "ne\ndata: three\n".data]
      ("data: one\ndata: three\n".data) (by decide)⟩

theorem trimL_ne_nil {l : List Char} {c : Char} (hmem : c ∈ l)
    (hc : c.isWhitespace = false) : trimL l ≠ [] := by
  intro he
  simp only [trimL, List.reverse_eq_nil_iff, List.dropWhile_eq_nil_iff] at he
  have hdw : ∀ x ∈ l.dropWhile Char.isWhitespace, x.isWhitespace := fun x hx =>
    he x (List.mem_reverse.mpr hx)
  have hsplit : c ∈ l.takeWhile Char.isWhitespace ++ l.dropWhile Char.isWhitespace := by
    rw [List.takeWhile_append_dropWhile Char.isWhitespace l]
    exact hmem
  rcases List.mem_append.mp hsplit with h | h
  · rw [List.mem_takeWhile_imp h] at hc
    exact Bool.true_eq_false.mp hc
  · rw [hdw c h] at hc
    exact Bool.true_eq_false.mp hc

theorem parseSSELine_data (l : List Char) :
    parseSSELine ("data: ".data ++ l) = some ⟨"data".data, trimL l⟩ := by
  have h1 : trimL ("data: ".data ++ l) ≠ [] :=
    trimL_ne_nil (c := 'd') (List.mem_append.mpr (Or.inl (by decide))) (by decide)
  have h2 : "data: ".data.isPrefixOf ("data: ".data ++ l) = true := by
    rw [List.isPrefixOf_iff_prefix]
    exact List.prefix_append _ _
  have h3 : ("data: ".data ++ l).drop 6 = l := by
    have h6 : (6 : Nat) = ("data: ".data).length := by decide
    rw [h6, List.drop_left]
  unfold parseSSELine
  rw [if_neg h1, if_pos h2, h3]

theorem applyData_dataLine (J : List Char → Option ChatCompletionStreamChunk)
    (out : List ChatCompletionStreamChunk) (l : List Char)
    (hd : trimL l ≠ "[DONE]".data) :
    applyData J (out, false) ("data: ".data ++ l) =
      match J (trimL l) with
      | some chunk => (out ++ [chunk], false)
      | none => (out, false) := by
  unfold applyData
  rw [parseSSELine_data]
  simp only [ne_eq, Bool.false_eq_true, if_false, not_true_eq_false, if_neg hd]

theorem feedBatch_spec (J : List Char → Option ChatCompletionStreamChunk)
    (st : PState) (b : List Char) (h : st.term = false)
    (parts : List (List Char)) (hparts : splitNl (st.buffer ++ b) = parts)
    (r : List ChatCompletionStreamChunk × Bool)
    (hr : parts.dropLast.foldl (applyData J) (st.out, false) = r) :
    feedBatch J st b =
      if r.2 then ⟨[], r.1, true⟩ else ⟨parts.getLastD [], r.1, false⟩ := by
  simp [feedBatch, h, hparts, hr]

/-- Claim C7: a malformed (unparsable) data line between two valid chunk
data lines does not abort the sequence — the malformed line is skipped
and both valid chunks are still yielded, in order. -/
theorem spec_C7 (J : List Char → Option ChatCompletionStreamChunk)
    (l1 l2 l3 : List Char) (c1 c3 : ChatCompletionStreamChunk)
    (h1n : '\n' ∉ l1) (h2n : '\n' ∉ l2) (h3n : '\n' ∉ l3)
    (hd1 : trimL l1 ≠ "[DONE]".data) (hd2 : trimL l2 ≠ "[DONE]".data)
    (hd3 : trimL l3 ≠ "[DONE]".data)
    (hJ1 : J (trimL l1) = some c1) (hJ2 : J (trimL l2) = none)
    (hJ3 : J (trimL l3) = some c3) :
    parseStream J
      [("data: ".data ++ l1) ++ '\n' ::
        (("data: ".data ++ l2) ++ '\n' :: (("data: ".data ++ l3) ++ ['\n']))]
      = [c1, c3] := by
  have hno : '\n' ∉ "data: ".data := by decide
  have hnd1 : '\n' ∉ "data: ".data ++ l1 := by
    intro h; rcases List.mem_append.mp h with h | h
    · exact hno h
    · exact h1n h
  have hnd2 : '\n' ∉ "data: ".data ++ l2 := by
    intro h; rcases List.mem_append.mp h with h | h
    · exact hno h
    · exact h2n h
  have hnd3 : '\n' ∉ "data: ".data ++ l3 := by
    intro h; rcases List.mem_append.mp h with h | h
    · exact hno h
    · exact h3n h
  have hsplit :
      splitNl (initState.buffer ++
        (("data: ".data ++ l1) ++ '\n' ::
          (("data: ".data ++ l2) ++ '\n' :: (("data: ".data ++ l3) ++ ['\n'])))) =
      [("data: ".data ++ l1), ("data: ".data ++ l2), ("data: ".data ++ l3), []] := by
    show splitNl ([] ++ _) = _
    rw [List.nil_append, splitNl_append_nl _ hnd1, splitNl_append_nl _ hnd2]
    have h3e : ("data: ".data ++ l3) ++ ['\n'] = ("data: ".data ++ l3) ++ '\n' :: [] := rfl
    rw [h3e, splitNl_append_nl _ hnd3]
    rfl
  have hfold :
      ([("data: ".data ++ l1), ("data: ".data ++ l2), ("data: ".data ++ l3),
        []] : List (List Char)).dropLast.foldl (applyData J) (initState.out, false)
      = ([c1, c3], false) := by
    show ([("data: ".data ++ l1), ("data: ".data ++ l2),
      ("data: ".data ++ l3)] : List (List Char)).foldl (applyData J) ([], false) = _
    simp only [List.foldl_cons, List.foldl_nil]
    rw [applyData_dataLine J [] l1 hd1, hJ1]
    show applyData J (applyData J ([c1], false) ("data: ".data ++ l2))
      ("data: ".data ++ l3) = ([c1, c3], false)
    rw [applyData_dataLine J [c1] l2 hd2, hJ2]
    show applyData J ([c1], false) ("data: ".data ++ l3) = ([c1, c3], false)
    rw [applyData_dataLine J [c1] l3 hd3, hJ3]
    rfl
  rw [parseStream_eq_flush, List.foldl_cons, List.foldl_nil,
    feedBatch_spec J initState _ rfl _ hsplit _ hfold]
  show flushBuffer J ⟨[], [c1, c3], false⟩ = [c1, c3]
  simp [flushBuffer, trimL]

/-- Witness for C7: a concrete stream whose middle data line fails to
parse still yields the two surrounding chunks in order. -/
theorem spec_C7_witness :
    demoParse (trimL "one".data) = some demoChunk1 ∧
    demoParse (trimL "oops".data) = none ∧
    demoParse (trimL "three".data) = some demoChunk3 ∧
    parseStream demoParse
      [("data: ".data ++ "one".data) ++ '\n' ::
        (("data: ".data ++ "oops".data) ++ '\n' ::
          (("data: ".data ++ "three".data) ++ ['\n']))]
      = [demoChunk1, demoChunk3] :=
  ⟨by decide, by decide, by decide,
    spec_C7 demoParse "one".data "oops".data "three".data demoChunk1 demoChunk3
      (by decide) (by decide) (by decide) (by decide) (by decide) (by decide)
      (by decide) (by decide) (by decide)⟩

/-! ### Cancellation behaviour of the stream driver (claim C1) -/

theorem runEvents_append_aborted (J : List Char → Option ChatCompletionStreamChunk)
    (st : PState) (pre post : List ReadEvent) :
    runEvents J st (pre ++ ReadEvent.aborted :: post)
      = runEvents J st (pre ++ [ReadEvent.aborted]) := by
  induction pre generalizing st with
  | nil => rfl
  | cons e pre ih =>
    cases e with
    | batch b =>
      cases h : (feedBatch J st b).term with
      | true => simp [runEvents, h]
      | false => simp [runEvents, h, ih]
    | aborted => rfl
    | ioError => rfl

theorem runEvents_ne_failed (J : List Char → Option ChatCompletionStreamChunk)
    (st : PState) (events : List ReadEvent) (h : ReadEvent.ioError ∉ events) :
    (runEvents J st events).2 ≠ EndKind.failed := by
  induction events generalizing st with
  | nil => simp [runEvents]
  | cons e rest ih =>
    cases e with
    | batch b =>
      cases hb : (feedBatch J st b).term with
      | true => simp [runEvents, hb]
      | false =>
        simp only [runEvents, hb, Bool.false_eq_true, if_false]
        exact ih _ fun hx => h (List.mem_cons_of_mem _ hx)
    | aborted => simp [runEvents]
    | ioError => exact absurd (List.mem_cons_self ReadEvent.ioError rest) h

theorem countP_stepChunk (acc : FoldState) (ch : ChatCompletionStreamChunk) :
    (stepChunk acc ch).trace.countP isCompleteCB = acc.trace.countP isCompleteCB := by
  by_cases h1 : extractContentFromChunk ch = [] <;>
    by_cases h2 : isStreamComplete ch = true <;>
      simp [stepChunk, h1, h2, List.countP_append, isCompleteCB, List.countP_cons]

theorem countP_foldl_stepChunk (chunks : List ChatCompletionStreamChunk)
    (acc : FoldState) :
    ((chunks.foldl stepChunk acc).trace).countP isCompleteCB
      = acc.trace.countP isCompleteCB := by
  induction chunks generalizing acc with
  | nil => rfl
  | cons ch chunks ih => rw [List.foldl_cons, ih, countP_stepChunk]

theorem processStream_clean_end (J : List Char → Option ChatCompletionStreamChunk)
    (events : List ReadEvent) (hend : (runEvents J initState events).2 ≠ EndKind.failed) :
    ∃ tr full fr,
      processStreamEvents J events = tr ++ [CBEvent.completeCB full fr] ∧
      tr.countP isCompleteCB = 0 := by
  have hr2 : (parseStreamEvents J events).2 = false := by
    unfold parseStreamEvents
    rcases hr : runEvents J initState events with ⟨st, k⟩
    rw [hr] at hend
    cases k <;> simp_all
  unfold processStreamEvents
  simp only [hr2, Bool.false_eq_true, if_false]
  refine ⟨_, _, _, rfl, ?_⟩
  rw [countP_foldl_stepChunk]
  rfl

/-- Counterexample to claim C1 as stated: when the cancellation handle
fires mid-stream (the pending `reader.read()` rejects with `AbortError`),
`parseStreamResponse` catches the abort and returns normally, so
`processStream` still invokes `onComplete` with the partial content —
the claim says `onComplete` is never invoked for that request. -/
theorem spec_C1_counterexample :
    processStreamEvents demoParse [ReadEvent.batch "data: one\n".data, ReadEvent.aborted]
      = [CBEvent.chunkCB demoChunk1, CBEvent.contentCB "Hi".data "Hi".data,
         CBEvent.completeCB "Hi".data none] := by decide

/-- Claim C1 (amended): if the external cancellation handle fires while
the stream is in flight, no callbacks are forwarded for anything arriving
after that point (the trace equals the one with the stream cut at the
abort), but — contrary to the original claim — `onComplete` is still
invoked, exactly once, as the final callback, with the content
accumulated before cancellation; the abort is not reported as an error. -/
theorem spec_C1_amended (J : List Char → Option ChatCompletionStreamChunk)
    (pre post : List ReadEvent) (hpre : ReadEvent.ioError ∉ pre) :
    processStreamEvents J (pre ++ ReadEvent.aborted :: post)
      = processStreamEvents J (pre ++ [ReadEvent.aborted]) ∧
    (processStreamEvents J (pre ++ ReadEvent.aborted :: post)).countP isCompleteCB = 1 ∧
    ∃ full fr,
      (processStreamEvents J (pre ++ ReadEvent.aborted :: post)).getLast?
        = some (CBEvent.completeCB full fr) := by
  have heq : processStreamEvents J (pre ++ ReadEvent.aborted :: post)
      = processStreamEvents J (pre ++ [ReadEvent.aborted]) := by
    unfold processStreamEvents parseStreamEvents
    rw [runEvents_append_aborted]
  have hend : (runEvents J initState (pre ++ [ReadEvent.aborted])).2 ≠ EndKind.failed := by
    refine runEvents_ne_failed J initState _ fun hx => ?_
    rcases List.mem_append.mp hx with h | h
    · exact hpre h
    · simp at h
  obtain ⟨tr, full, fr, htr, hcnt⟩ := processStream_clean_end J (pre ++ [ReadEvent.aborted]) hend
  refine ⟨heq, ?_, ?_⟩
  · rw [heq, htr, List.countP_append, hcnt]
    rfl
  · rw [heq, htr]
    exact ⟨full, fr, List.getLast?_concat _⟩

/-- Witness for the amended C1: a concrete stream cancelled after one
chunk; a batch arriving after the abort is not forwarded, and the trace
ends with a single `onComplete`. -/
theorem spec_C1_witness :
    processStreamEvents demoParse
        [ReadEvent.batch "data: one\n".data, ReadEvent.aborted,
          ReadEvent.batch "data: three\n".data]
      = processStreamEvents demoParse [ReadEvent.batch "data: one\n".data, ReadEvent.aborted] ∧
    (processStreamEvents demoParse
        [ReadEvent.batch "data: one\n".data, ReadEvent.aborted,
          ReadEvent.batch "data: three\n".data]).countP isCompleteCB = 1 ∧
    ∃ full fr,
      (processStreamEvents demoParse
          [ReadEvent.batch "data: one\n".data, ReadEvent.aborted,
            ReadEvent.batch "data: three\n".data]).getLast?
        = some (CBEvent.completeCB full fr) :=
  spec_C1_amended demoParse [ReadEvent.batch "data: one\n".data]
    [ReadEvent.batch "data: three\n".data] (by decide)

/-! ### Retry policy and retry loop (claims C3, C4, C5) -/

/-- Claim C3: for every retry policy and attempt index `n`, the computed
retry delay equals `min(initialDelayMs × backoffMultiplier^n, maxDelayMs)`
plus a jitter value in `[0, 1000)` ms. -/
theorem spec_C3 (rc : RetryConfig) (n : Nat) (rand : ℚ)
    (h0 : 0 ≤ rand) (h1 : rand < 1) :
    ∃ jitter, 0 ≤ jitter ∧ jitter < 1000 ∧
      calculateRetryDelay rc n rand
        = min (rc.initialDelayMs * rc.backoffMultiplier ^ n) rc.maxDelayMs + jitter := by
  refine ⟨rand * 1000, mul_nonneg h0 (by norm_num), ?_, rfl⟩
  have h := mul_lt_mul_of_pos_right h1 (show (0:ℚ) < 1000 by norm_num)
  simpa using h

/-- Witness for C3 at the default retry policy, attempt 2, a draw of 1/2. -/
theorem spec_C3_witness :
    (0:ℚ) ≤ 1/2 ∧ (1/2:ℚ) < 1 ∧
    ∃ jitter, 0 ≤ jitter ∧ jitter < 1000 ∧
      calculateRetryDelay DEFAULT_RETRY_CONFIG 2 (1/2)
        = min (DEFAULT_RETRY_CONFIG.initialDelayMs *
            DEFAULT_RETRY_CONFIG.backoffMultiplier ^ 2) DEFAULT_RETRY_CONFIG.maxDelayMs
          + jitter :=
  ⟨by norm_num, by norm_num, spec_C3 DEFAULT_RETRY_CONFIG 2 (1/2) (by norm_num) (by norm_num)⟩

theorem requestIter_503 {T : Type} (outcome : Nat → Except Caught T)
    (maxRetries : Nat) (m : List Char)
    (hout : ∀ n, outcome n = .error (.apiError (.server m 503))) :
    ∀ fuel attempt, fuel + attempt = maxRetries + 1 → 0 < fuel →
      requestIter outcome maxRetries attempt fuel
        = (.error (.server m 503), maxRetries + 1) := by
  intro fuel
  induction fuel with
  | zero => intro attempt _ hpos; exact absurd hpos (lt_irrefl 0)
  | succ fuel ih =>
    intro attempt hsum _
    simp only [requestIter]
    rw [hout attempt]
    simp only [handleFetchError, isCancellation, Bool.false_eq_true, if_false,
      isRetryableError]
    by_cases hle : maxRetries ≤ attempt
    · have ha : attempt = maxRetries := by omega
      rw [if_pos (Or.inr hle), ha]
    · rw [if_neg ?_]
      · exact ih (attempt + 1) (by omega) (by omega)
      · rintro (hfalse | hge)
        · simp at hfalse
        · exact hle hge

/-- Claim C4: the retry-eligibility predicate holds network and timeout
errors always retryable, server errors retryable exactly for statuses in
[500, 599], and every other kind non-retryable; consequently `request`
retries an HTTP 503 failure through all `maxRetries` additional attempts
(performing `1 + maxRetries` in total) and never retries an HTTP 400
failure (one attempt only). -/
theorem spec_C4 :
    (∀ m, isRetryableError (.network m) = true) ∧
    (∀ m, isRetryableError (.timeout m) = true) ∧
    (∀ m s, isRetryableError (.server m s) = true ↔ 500 ≤ s ∧ s ≤ 599) ∧
    (∀ m c sc, isRetryableError (.api m c sc) = false) ∧
    (∀ m, isRetryableError (.stream m) = false) ∧
    (∀ m mid, isRetryableError (.modelNotFound m mid) = false) ∧
    (∀ m f, isRetryableError (.validation m f) = false) ∧
    (∀ m, isRetryableError (.cancelled m) = false) ∧
    (∀ m, isRetryableError (.parseFail m) = false) ∧
    (∀ (T : Type) (outcome : Nat → Except Caught T) (maxRetries : Nat) (m : List Char),
      (∀ n, outcome n = .error (.apiError (.server m 503))) →
      request outcome maxRetries = (.error (.server m 503), maxRetries + 1)) ∧
    (∀ (T : Type) (outcome : Nat → Except Caught T) (maxRetries : Nat) (m : List Char),
      outcome 0 = .error (.apiError (.server m 400)) →
      request outcome maxRetries = (.error (.server m 400), 1)) := by
  refine ⟨fun m => rfl, fun m => rfl, ?_, fun m c sc => rfl, fun m => rfl,
    fun m mid => rfl, fun m f => rfl, fun m => rfl, fun m => rfl, ?_, ?_⟩
  · intro m s
    simp only [isRetryableError, decide_eq_true_eq]
    omega
  · intro T outcome maxRetries m hout
    exact requestIter_503 outcome maxRetries m hout (maxRetries + 1) 0 (by omega) (by omega)
  · intro T outcome maxRetries m hout
    unfold request
    simp only [requestIter]
    rw [hout]
    simp [handleFetchError, isCancellation, isRetryableError]

/-- Witness for C4: with a transport failing 503 on every attempt and
`maxRetries = 3`, `request` performs 4 attempts; with a 400 on the first
attempt it performs exactly one. -/
theorem spec_C4_witness :
    ((fun _ => Except.error (Caught.apiError (APIErr.server "boom".data 503)) :
        Nat → Except Caught Unit) 0
      = Except.error (Caught.apiError (APIErr.server "boom".data 503))) ∧
    request (fun _ => Except.error (Caught.apiError (APIErr.server "boom".data 503)) :
        Nat → Except Caught Unit) 3
      = (.error (.server "boom".data 503), 4) ∧
    request (fun _ => Except.error (Caught.apiError (APIErr.server "bad".data 400)) :
        Nat → Except Caught Unit) 3
      = (.error (.server "bad".data 400), 1) :=
  ⟨rfl,
    spec_C4.2.2.2.2.2.2.2.2.2.1 Unit
      (fun _ => Except.error (Caught.apiError (APIErr.server "boom".data 503))) 3
      "boom".data (fun _ => rfl),
    spec_C4.2.2.2.2.2.2.2.2.2.2 Unit
      (fun _ => Except.error (Caught.apiError (APIErr.server "bad".data 400))) 3
      "bad".data rfl⟩

theorem requestIter_cancel {T : Type} (outcome : Nat → Except Caught T)
    (maxRetries k : Nat) (am : List Char) (hk : k ≤ maxRetries)
    (hpre : ∀ i, i < k → ∃ c, outcome i = .error c ∧
      isCancellation (handleFetchError c) = false ∧
      isRetryableError (handleFetchError c) = true)
    (habort : outcome k = .error (.jsError "AbortError".data am)) :
    ∀ fuel attempt, fuel + attempt = maxRetries + 1 → attempt ≤ k →
      requestIter outcome maxRetries attempt fuel
        = (.error (.cancelled "Request was cancelled".data), k + 1) := by
  intro fuel
  induction fuel with
  | zero => intro attempt hsum hak; omega
  | succ fuel ih =>
    intro attempt hsum hak
    by_cases hek : attempt = k
    · subst hek
      simp only [requestIter]
      rw [habort]
      simp [handleFetchError, isCancellation]
    · have hlt : attempt < k := lt_of_le_of_ne hak hek
      obtain ⟨c, hc, hnc, hrt⟩ := hpre attempt hlt
      simp only [requestIter]
      rw [hc]
      simp only [hnc, Bool.false_eq_true, if_false, hrt]
      rw [if_neg ?_]
      · exact ih (attempt + 1) (by omega) (by omega)
      · rintro (hfalse | hge)
        · simp at hfalse
        · omega

/-- Claim C5: if cancellation is observed during any attempt of the
client's request (reaching attempt `k` after retryable failures), the
operation raises exactly a `cancelled` error and performs no further
attempts, regardless of the remaining `1 + maxRetries` budget. -/
theorem spec_C5 {T : Type} (outcome : Nat → Except Caught T)
    (maxRetries k : Nat) (am : List Char) (hk : k ≤ maxRetries)
    (hpre : ∀ i, i < k → ∃ c, outcome i = .error c ∧
      isCancellation (handleFetchError c) = false ∧
      isRetryableError (handleFetchError c) = true)
    (habort : outcome k = .error (.jsError "AbortError".data am)) :
    request outcome maxRetries
      = (.error (.cancelled "Request was cancelled".data), k + 1) :=
  requestIter_cancel outcome maxRetries k am hk hpre habort (maxRetries + 1) 0
    (by omega) (by omega)

/-- Witness for C5: with `maxRetries = 3`, a retryable network failure on
attempt 0 and an abort on attempt 1, `request` stops after 2 attempts
with a `cancelled` error although 2 more retries were budgeted. -/
theorem spec_C5_witness :
    request (fun n => if n = 0
        then Except.error (Caught.jsError "Error".data "Network down".data)
        else Except.error (Caught.jsError "AbortError".data "x".data) :
        Nat → Except Caught Unit) 3
      = (.error (.cancelled "Request was cancelled".data), 2) :=
  spec_C5 (fun n => if n = 0
      then Except.error (Caught.jsError "Error".data "Network down".data)
      else Except.error (Caught.jsError "AbortError".data "x".data))
    3 1 "x".data (by omega)
    (fun i hi => by
      have hi0 : i = 0 := by omega
      subst hi0
      exact ⟨Caught.jsError "Error".data "Network down".data, rfl, by decide, by decide⟩)
    rfl

/-! ### The error classifier (claim C6) -/

/-- Counterexample to claim C6 as stated: the claim says a message
containing `"failed to fetch"` is classified as `network`, but the code's
check is case-sensitive on `'Failed to fetch'` (and `'Network'`), so an
all-lowercase message falls through to the generic unknown `APIError`. -/
theorem spec_C6_counterexample :
    handleFetchError (Caught.jsError "Error".data "failed to fetch".data)
      = APIErr.api "failed to fetch".data "UNKNOWN_ERROR".data none ∧
    handleFetchError (Caught.jsError "Error".data "failed to fetch".data)
      ≠ APIErr.network "Network request failed".data := by
  constructor
  · decide
  · decide

/-- Claim C6 (amended): the classifier maps every caught native error to
exactly one kind, in order: abort signals (`name = 'AbortError'`) to
`cancelled`; errors named `'TimeoutError'` or whose message contains
`'timeout'` (case-sensitively) to `timeout`; errors whose message
contains `'Network'` or `'Failed to fetch'` (case-sensitively) to
`network`; everything else to `unknown`; `APIError` instances pass
through unchanged. -/
theorem spec_C6_amended (name message : List Char) :
    (name = "AbortError".data →
      handleFetchError (.jsError name message)
        = .cancelled "Request was cancelled".data) ∧
    (name ≠ "AbortError".data →
      (name = "TimeoutError".data ∨ includesSub "timeout".data message = true) →
      handleFetchError (.jsError name message) = .timeout "Request timeout".data) ∧
    (name ≠ "AbortError".data → name ≠ "TimeoutError".data →
      includesSub "timeout".data message = false →
      (includesSub "Network".data message = true ∨
        includesSub "Failed to fetch".data message = true) →
      handleFetchError (.jsError name message)
        = .network "Network request failed".data) ∧
    (name ≠ "AbortError".data → name ≠ "TimeoutError".data →
      includesSub "timeout".data message = false →
      includesSub "Network".data message = false →
      includesSub "Failed to fetch".data message = false →
      handleFetchError (.jsError name message)
        = .api message "UNKNOWN_ERROR".data none) ∧
    (∀ e, handleFetchError (.apiError e) = e) := by
  refine ⟨?_, ?_, ?_, ?_, fun e => rfl⟩
  · intro h
    simp [handleFetchError, h]
  · intro h1 h2
    simp [handleFetchError, h1, h2]
  · intro h1 h2 h3 h4
    simp [handleFetchError, h1, h2, h3, h4]
  · intro h1 h2 h3 h4 h5
    simp [handleFetchError, h1, h2, h3, h4, h5]

/-- Witness for the amended C6: a native error whose message is exactly
`'Failed to fetch'` is classified as `network`. -/
theorem spec_C6_witness :
    handleFetchError (Caught.jsError "Error".data "Failed to fetch".data)
      = APIErr.network "Network request failed".data :=
  (spec_C6_amended "Error".data "Failed to fetch".data).2.2.1
    (by decide) (by decide) (by decide) (Or.inr (by decide))

/-! ### `sendMessage` validation and response handling (claims C8, C10) -/

theorem getLast?_formatMessages (messages : List Message) :
    (formatMessages messages).getLast?
      = messages.getLast?.map fun m => (⟨m.role, m.content⟩ : WireMessage) := by
  simp [formatMessages, List.getLast?_map]

/-- Claim C8: if validation fails, `sendMessage` raises the validation
error before performing any network call (the transport is invoked zero
times); and each of the three conditions — empty model, empty message
list, invalid last-message content — makes validation fail with a
`validation` error. -/
theorem spec_C8
    (transport : ChatCompletionRequest → Except APIErr ChatCompletionResponse)
    (messages : List Message) (model : List Char)
    (temperature maxTokens topP : Option ℚ) :
    (∀ e, validateRequest (buildRequest messages model temperature maxTokens topP false)
        = some e →
      sendMessage transport messages model temperature maxTokens topP = (.error e, 0)) ∧
    ((model = [] ∨ messages = [] ∨
        (∃ lm, messages.getLast? = some lm ∧ (isValidMessage lm.content).1 = false)) →
      ∃ m f, validateRequest (buildRequest messages model temperature maxTokens topP false)
        = some (.validation m f)) := by
  constructor
  · intro e he
    unfold sendMessage
    simp only [he]
  · intro h
    by_cases hm : model = []
    · exact ⟨"Model is required".data, some "model".data, by
        simp [validateRequest, buildRequest, hm]⟩
    · by_cases hmsg : messages = []
      · refine ⟨"At least one message is required".data, some "messages".data, ?_⟩
        simp [validateRequest, buildRequest, hm, hmsg, formatMessages]
      · rcases h with h | h | ⟨lm, hlm, hinv⟩
        · exact absurd h hm
        · exact absurd h hmsg
        · have hwire : (formatMessages messages).getLast?
              = some ⟨lm.role, lm.content⟩ := by
            rw [getLast?_formatMessages, hlm]
            rfl
          refine ⟨(isValidMessage lm.content).2.getD "Invalid message".data,
            some "messages".data, ?_⟩
          have hne : formatMessages messages ≠ [] := by
            simp [formatMessages, hmsg]
          unfold validateRequest buildRequest
          simp only [hm, if_neg, hne, hwire, hinv]
          simp [hm, hne, hwire, hinv]

/-- Witness for C8: with messages `[{role: user, content: "hello"}]` and
an empty model string, a `validation` error is raised and the transport
is invoked zero times. -/
theorem spec_C8_witness :
    validateRequest (buildRequest [⟨"1".data, MessageRole.user, "hello".data, 0, none⟩]
        [] none none none false)
      = some (.validation "Model is required".data (some "model".data)) ∧
    sendMessage (fun _ => Except.error (APIErr.network []))
        [⟨"1".data, MessageRole.user, "hello".data, 0, none⟩] [] none none none
      = (.error (.validation "Model is required".data (some "model".data)), 0) :=
  ⟨by decide,
    (spec_C8 (fun _ => Except.error (APIErr.network []))
        [⟨"1".data, MessageRole.user, "hello".data, 0, none⟩] [] none none none).1
      (.validation "Model is required".data (some "model".data)) (by decide)⟩

/-- Claim C10: when the response body of a non-streaming `sendMessage`
has a missing or empty `choices` array, the service raises the
`'No response from model'` `APIError` instead of returning content. -/
theorem spec_C10
    (transport : ChatCompletionRequest → Except APIErr ChatCompletionResponse)
    (messages : List Message) (model : List Char)
    (temperature maxTokens topP : Option ℚ) (resp : ChatCompletionResponse)
    (hval : validateRequest (buildRequest messages model temperature maxTokens topP false)
      = none)
    (htr : transport (buildRequest messages model temperature maxTokens topP false)
      = .ok resp)
    (hch : resp.choices = none ∨ resp.choices = some []) :
    sendMessage transport messages model temperature maxTokens topP
      = (.error (.api "No response from model".data "NO_RESPONSE".data none), 1) := by
  unfold sendMessage
  simp only [hval, htr]
  rcases hch with h | h <;> rw [h]

/-- Witness for C10: a transport answering with an empty `choices` list
makes `sendMessage` fail with the `NO_RESPONSE` `APIError`. -/
theorem spec_C10_witness :
    validateRequest (buildRequest [⟨"1".data, MessageRole.user, "hello".data, 0, none⟩]
        "m".data none none none false) = none ∧
    sendMessage
        (fun _ => Except.ok ⟨"i".data, "chat.completion".data, 0, "m".data, some []⟩)
        [⟨"1".data, MessageRole.user, "hello".data, 0, none⟩] "m".data none none none
      = (.error (.api "No response from model".data "NO_RESPONSE".data none), 1) :=
  ⟨by decide,
    spec_C10 (fun _ => Except.ok ⟨"i".data, "chat.completion".data, 0, "m".data, some []⟩)
      [⟨"1".data, MessageRole.user, "hello".data, 0, none⟩] "m".data none none none
      ⟨"i".data, "chat.completion".data, 0, "m".data, some []⟩
      (by decide) rfl (Or.inr rfl)⟩

/-! ### Health check (claim C9) -/

/-- Claim C9: `check` never raises — it is a total function of the GET
outcome: on success it reports healthy with the latency and the model
count, on any failure it reports unhealthy with the latency and a
non-empty error message. -/
theorem spec_C9 (r : Except APIErr (Option ModelsPayload)) (t : Nat) :
    (∀ payload, r = .ok payload →
      check r t = ⟨true, some t,
        some (((payload.bind ModelsPayload.data).map List.length).getD 0), none⟩) ∧
    (∀ e, r = .error e →
      (check r t).isHealthy = false ∧ (check r t).latency = some t ∧
      ∃ m, (check r t).error = some m ∧ m ≠ []) := by
  constructor
  · intro payload h
    subst h
    rfl
  · intro e h
    subst h
    refine ⟨rfl, rfl, ?_⟩
    by_cases hm : e.message = []
    · exact ⟨"Health check failed".data, by simp [check, hm], by decide⟩
    · exact ⟨e.message, by simp [check, hm], hm⟩

/-- Witness for C9: an unreachable endpoint (a network failure with an
empty underlying message) yields an unhealthy result with the fallback
non-empty error message, and a success yields the healthy shape. -/
theorem spec_C9_witness :
    ((check (.error (APIErr.network [])) 7).isHealthy = false ∧
      (check (.error (APIErr.network [])) 7).latency = some 7 ∧
      ∃ m, (check (.error (APIErr.network [])) 7).error = some m ∧ m ≠ []) :=
  (spec_C9 (.error (APIErr.network [])) 7).2 (APIErr.network []) rfl

end LMChat
